import Mathlib

/-
  Verification of the Ormanet Upselling pricing/selection engine
  (src/app/engine.py) against its natural-language specification.

  The engine is embedded shallowly:
  * Python floats are modelled as exact rationals (ℚ);
  * Python `None` becomes `Option`;
  * Python dicts become association lists with first-match lookup
    (dict keys are unique, so this coincides with dict semantics);
  * a Python dict/list/string used in a boolean position is "falsy"
    exactly when empty, which the embedding mirrors where it matters;
  * the `raise ValueError` in `compute_upsell` becomes `Except String`;
  * logging, the audit `trace` dictionary and the `source_file` /
    `source_row` provenance fields are omitted: they are write-only
    diagnostics that no verified property mentions.

  Definition names follow the Python source (snake_case made camelCase
  where needed); `macro` is a Lean keyword, so the parameter is named
  `macroCat`.
-/

/-! ## String helpers (Python `str.upper`, `str.strip`, `re.sub`) -/

/-- Python `str.upper` for the alphabet the engine manipulates: ASCII
letters plus the accented vowels that `normalize_text` later strips. -/
def pyUpperChar (c : Char) : Char :=
  if c = 'à' then 'À'
  else if c = 'è' then 'È'
  else if c = 'é' then 'É'
  else if c = 'ì' then 'Ì'
  else if c = 'ò' then 'Ò'
  else if c = 'ù' then 'Ù'
  else c.toUpper

def pyUpper (s : String) : String :=
  String.mk (s.data.map pyUpperChar)

def isWS (c : Char) : Bool :=
  c = ' ' || c = '\t' || c = '\n' || c = '\r'

/-- Python `str.strip`: drop whitespace on both ends. -/
def pyStrip (s : String) : String :=
  String.mk (((s.data.dropWhile isWS).reverse.dropWhile isWS).reverse)

/-- Characters matched by the `[\s/_-]` class in `normalize_text`. -/
def isSepChar (c : Char) : Bool :=
  isWS c || c = '/' || c = '_' || c = '-'

/-- `re.sub(r"<sep>+", " ", s)`: collapse each maximal run of separator
characters into a single space (fold keeps a "previous was sep" flag). -/
def collapseBy (sep : Char → Bool) (l : List Char) : List Char :=
  (l.foldl
    (fun acc c =>
      if sep c then
        if acc.2 then acc else (acc.1 ++ [' '], true)
      else
        (acc.1 ++ [c], false))
    (([] : List Char), false)).1

/-- The accent-stripping `.replace` chain of `normalize_text`. -/
def replaceAccent (c : Char) : Char :=
  if c = 'À' then 'A'
  else if c = 'È' then 'E'
  else if c = 'É' then 'E'
  else if c = 'Ì' then 'I'
  else if c = 'Ò' then 'O'
  else if c = 'Ù' then 'U'
  else c

/-- `normalize_text` (engine.py): upper, strip, collapse `[\s/_-]+` to a
single space, strip accents. -/
def normalizeText (value : String) : String :=
  String.mk (((collapseBy isSepChar (pyStrip (pyUpper value)).data)).map replaceAccent)

/-- `normalize_sku` (engine.py): strip, upper, collapse `\s+` to " ". -/
def normalizeSku (value : String) : String :=
  String.mk (collapseBy isWS (pyUpper (pyStrip value)).data)

/-- Does `hay` start with `needle`? (used for substring search). -/
def leadMatch : List Char → List Char → Bool
  | [], _ => true
  | _ :: _, [] => false
  | a :: as, b :: bs => a == b && leadMatch as bs

/-- Python `needle in hay` on strings: substring containment. -/
def containsSub (hay needle : String) : Bool :=
  hay.data.tails.any (fun t => leadMatch needle.data t)

/-- Python `s.replace("+", "")`. -/
def stripPlus (s : String) : String :=
  String.mk (s.data.filter (fun c => c ≠ '+'))

/-! ## Constants and the price-list map -/

def VAT_RATE : ℚ := 22 / 100

def ABSOLUTE_MIN_MARKUP : ℚ := 11

def DEFAULT_AGGRESSIVITY : ℚ := 0

def DEFAULT_MAX_DISCOUNT : ℚ := 10

def DEFAULT_ROUNDING : ℚ := 1 / 100

/-- `LISTINO_MAP.get(listino.upper().strip(), "RIV")` — the three known
price-list names map to their keys, anything else falls back to "RIV". -/
def listinoKey (listino : String) : String :=
  let t := pyStrip (pyUpper listino)
  if t = "LISTINO RI+10%" then "RIV+10"
  else if t = "LISTINO RI" then "RIV"
  else if t = "LISTINO DI" then "DIST"
  else "RIV"

/-! ## Rounding -/

/-- `round_up(value, decimals=2)`: ceiling at 2 decimals. -/
def roundUp2 (value : ℚ) : ℚ :=
  (⌈value * 100⌉ : ℚ) / 100

/-- `round_up_to_step`: ceiling to a multiple of `step`; identity when the
step is absent or nonpositive. -/
def roundUpToStep (value : ℚ) (step : Option ℚ) : ℚ :=
  match step with
  | none => value
  | some s =>
    if s ≤ 0 then value
    else
      let factor := 1 / s
      (⌈value * factor⌉ : ℚ) / factor

/-! ## Data model (engine.py dataclasses) -/

structure ClientInfo where
  client_id : String
  ragione_sociale : String
  listino : String
  categoria : String
deriving DecidableEq, Repr

structure StockItem where
  categoria : String
  marca : String
  codice : String
  descrizione : String
  disp : ℚ
  disp_in_arrivo : ℚ
  giacenza : ℚ
  data_arrivo : String
  listino_ri10 : ℚ
  listino_ri : ℚ
  listino_di : ℚ
  lm : ℚ
  prezzo_alt : Option ℚ
deriving DecidableEq, Repr

structure OrderItem where
  marca : String
  categoria : String
  codice : String
  descrizione : String
  qty : ℚ
  prezzo_unit : ℚ
  lm : ℚ
deriving DecidableEq, Repr

structure UpsellRow where
  codice : String
  descrizione : String
  qty : ℚ
  prezzo_unit : ℚ
  lm : ℚ
  prezzo_alt : Option ℚ
  alt_available : Bool
  alt_selected : Bool
  macro_categoria : String
  fixed_discount_percent : ℚ
  ric_base : ℚ
  ric_base_source : String
  ric_floor_source : String
  item_exception_hit : Bool
  customer_base_price : ℚ
  max_discount_real : ℚ
  max_discount_real_pct : ℚ
  max_discount_effective : ℚ
  max_discount_effective_pct : ℚ
  desired_discount_pct : ℚ
  applied_discount_pct : ℚ
  final_ric_percent : ℚ
  clamp_reason : Option String
  min_unit_price : Option ℚ
  required_ric : Option ℚ
  totale : ℚ
  disp : ℚ
  disponibile_dal : Option String
  note : Option String
deriving DecidableEq, Repr

structure PricingRow where
  codice : String
  descrizione : String
  categoria : String
  lm : ℚ
  ric_base : ℚ
  ric_min : ℚ
  sconto_fisso : ℚ
  prezzo_base : ℚ
  prezzo_min : ℚ
  sconto_richiesto : ℚ
  sconto_cap : ℚ
  sconto_effettivo : ℚ
  prezzo_finale : ℚ
  ric_effettivo : ℚ
  fonte_cap : Option String
deriving DecidableEq, Repr

structure PricingParams where
  aggressivity : ℚ
  aggressivity_mode : String
  max_discount_percent : Option ℚ
  buffer_ric : ℚ
  rounding : Option ℚ
deriving DecidableEq, Repr

/-- One `sconti[macro][listino_key]` entry; a missing key in the Python
dict is a missing (`none`) field here. -/
structure ScontiEntry where
  ric : Option ℚ
  ric_base : Option ℚ
  discount : Option ℚ
deriving DecidableEq, Repr

/-- One `ric_overrides[macro][listino_key]` entry.  An empty Python dict
is falsy, hence behaviourally identical to an absent entry; the embedding
represents both as a `none` lookup result. -/
structure CatOverride where
  ric_floor : Option ℚ
  ric_base : Option ℚ
deriving DecidableEq, Repr

/-- One per-SKU exception dict.  Fields are optional because the Python
code reads them with `get` defaults ("", "all" / "", 0.0). -/
structure ItemException where
  sku : Option String
  scope : Option String
  ric_base_override : Option ℚ
deriving DecidableEq, Repr

/-- The `sconti` policy table: macro-category → price-list key → entry. -/
abbrev Sconti := List (String × List (String × ScontiEntry))

/-- The `ric_overrides` table (empty list models Python `None`/`{}`,
both falsy). -/
abbrev RicOverrides := List (String × List (String × CatOverride))

/-- `sconti.get(macro, {}).get(listino_key, {})` before the per-field
defaults: `none` when either level is missing. -/
def scontiLookupOpt (sconti : Sconti) (macroCat listino_key : String) : Option ScontiEntry :=
  (sconti.lookup macroCat).getD [] |>.lookup listino_key

def scontiLookup (sconti : Sconti) (macroCat listino_key : String) : ScontiEntry :=
  (scontiLookupOpt sconti macroCat listino_key).getD ⟨none, none, none⟩

/-! ## Category classifier (`map_macro_category`) -/

/-- The hard-coded token heuristics (insertion order of the Python dict). -/
def tokenMap : List (String × String) :=
  [("BATTER", "BATTERIE"), ("CANCELL", "CANCELLERIA"), ("CARTA", "CARTA"),
   ("ROTOL", "ROTOLI TERMICI"), ("REMAN", "REMAN"), ("ORIG", "ORIGINALI"),
   ("STORAGE", "STORAGE"), ("TIMBR", "TIMBRI")]

/-- `map_macro_category` (logging omitted): first mapping rule whose
normalized text occurs in the normalized category, else token heuristics,
else the "UNKNOWN" sentinel. -/
def mapMacroCategory (raw_category : String) (mapping : List (String × List String)) : String :=
  let normalized := normalizeText raw_category
  match mapping.findSome?
      (fun mr => if mr.2.any (fun rule => containsSub normalized (normalizeText rule))
                 then some mr.1 else none) with
  | some m => m
  | none =>
    match tokenMap.findSome?
        (fun tm => if containsSub normalized tm.1 then some tm.2 else none) with
    | some m => m
    | none => "UNKNOWN"

/-! ## Policy resolver (`resolve_ric_values`) -/

structure RicValues where
  listino_key : String
  ric_floor : ℚ
  ric_base : ℚ
  ric_floor_source : String
  ric_base_source : String
  item_exception_hit : Bool
deriving DecidableEq, Repr

/-- Floor merge: raise the default floor to a category override's floor
only when the override's value is strictly larger. -/
def ricFloorCalc (floorDefault : ℚ) (catOv : Option CatOverride) : ℚ × String :=
  match catOv with
  | none => (floorDefault, "default")
  | some ov =>
    let override_floor := ov.ric_floor.getD floorDefault
    if floorDefault < override_floor then (override_floor, "category_override")
    else (floorDefault, "default")

/-- Per-SKU exception selection: filter by SKU and scope (ALL or the
current price-list scope), stable-sort putting ALL-scoped entries first
(Python `list.sort` is stable and the key is two-valued, so the sort is
the concatenation of the two filters), and take the last entry.
Note the sort key reads the scope with default "" while the filter reads
it with default "all", exactly as the source does.
Returns (item_base, item_exception_hit). -/
def itemBaseCalc (item_exceptions : List ItemException) (sku : String)
    (listino_scope : String) : Option ℚ × Bool :=
  if item_exceptions ≠ [] ∧ sku ≠ "" then
    let normalized_sku := normalizeSku sku
    let scopedItems := item_exceptions.filter
      (fun e =>
        normalizeSku (e.sku.getD "") == normalized_sku &&
        (let sc := stripPlus (pyUpper (e.scope.getD "all"))
         sc == "ALL" || sc == listino_scope))
    let isAllKey : ItemException → Bool := fun e => pyUpper (e.scope.getD "") == "ALL"
    let sortedScoped := scopedItems.filter isAllKey ++ scopedItems.filter (fun e => ¬ isAllKey e)
    match sortedScoped.getLast? with
    | some e => (some (e.ric_base_override.getD 0), true)
    | none => (none, false)
  else (none, false)

/-- The `max()` merge of the baseline candidates `[ric_floor,
ric_base_default] (+ category_base) (+ item_base)`. -/
def ricBaseCalc (ric_floor ric_base_default : ℚ)
    (category_base item_base : Option ℚ) : ℚ :=
  let c1 := max ric_floor ric_base_default
  let c2 := match category_base with
    | some cb => max c1 cb
    | none => c1
  match item_base with
  | some ib => max c2 ib
  | none => c2

/-- `resolve_ric_values`.  `ric_overrides = []`, `item_exceptions = []`
and `sku = ""` model the Python `None`/empty (falsy) arguments. -/
def resolveRicValues (macroCat listino : String) (sconti : Sconti)
    (ric_overrides : RicOverrides) (item_exceptions : List ItemException)
    (sku : String) : RicValues :=
  let lkey := listinoKey listino
  let listino_scope := if lkey = "RIV+10" then "RIV10" else lkey
  let defaults := scontiLookup sconti macroCat lkey
  let ric_exact := defaults.ric.getD ABSOLUTE_MIN_MARKUP
  let ric_floor_default := max ABSOLUTE_MIN_MARKUP ric_exact
  let category_override : Option CatOverride :=
    if ric_overrides = [] then none
    else ((ric_overrides.lookup macroCat).getD []).lookup lkey
  let floorPair := ricFloorCalc ric_floor_default category_override
  let ric_floor := floorPair.1
  let ric_base_default := defaults.ric_base.getD ric_floor_default
  let category_base : Option ℚ :=
    category_override.map (fun ov => max ric_floor (ov.ric_base.getD ric_base_default))
  let itemPair := itemBaseCalc item_exceptions sku listino_scope
  let item_base := itemPair.1
  let ric_base := ricBaseCalc ric_floor ric_base_default category_base item_base
  let ric_base_source :=
    match item_base with
    | some ib => if ric_base ≤ ib then "item_exception"
        else match category_base with
          | some cb => if ric_base ≤ cb then "category_override" else "default"
          | none => "default"
    | none => match category_base with
        | some cb => if ric_base ≤ cb then "category_override" else "default"
        | none => "default"
  { listino_key := lkey
    ric_floor := ric_floor
    ric_base := ric_base
    ric_floor_source := floorPair.2
    ric_base_source := ric_base_source
    item_exception_hit := itemPair.2 }

/-- `get_fixed_discount`. -/
def getFixedDiscount (macroCat listino : String) (sconti : Sconti) : ℚ :=
  (scontiLookup sconti macroCat (listinoKey listino)).discount.getD 0

/-! ## Pricing pipeline (`apply_pricing_pipeline`) -/

/-- `aggressivity_to_discount_percent`: clamp to [0, 100]. -/
def aggressivityToDiscountPercent (aggressivity : ℚ) : ℚ :=
  max 0 (min 100 aggressivity)

/-- The `payload` dict returned by `apply_pricing_pipeline`. -/
structure PipelineOut where
  baseline_price : ℚ
  floor_price : ℚ
  max_discount_real : ℚ
  max_discount_real_pct : ℚ
  max_discount_effective : ℚ
  max_discount_effective_pct : ℚ
  desired_discount_pct : ℚ
  effective_discount_pct : ℚ
  candidate_price : ℚ
  final_price : ℚ
  final_ric : ℚ
  applied_discount_pct : ℚ
deriving DecidableEq, Repr

/-- The shared "round up, and if rounding somehow fell below the floor,
re-round the floor itself and re-assert the clamp reason" tail of both
`apply_pricing_pipeline` and the unit-price-override branch. -/
def floorRound (cand : ℚ) (cl : Option String) (floor_price : ℚ)
    (rounding : Option ℚ) : ℚ × Option String :=
  let fp0 := roundUpToStep cand rounding
  if fp0 < floor_price then (roundUpToStep floor_price rounding, some "MIN_RIC_FLOOR")
  else (fp0, cl)

/-- `apply_pricing_pipeline`: baseline/floor prices, discount resolution,
floor clamp and ceiling rounding.  Returns (payload, clamp_reason). -/
def applyPricingPipeline (lm ric_base ric_floor aggressivity : ℚ)
    (max_discount_percent rounding discount_override : Option ℚ) :
    PipelineOut × Option String :=
  let baseline_price := lm * (1 + ric_base / 100)
  let floor_price := lm * (1 + ric_floor / 100)
  let mdr0 := if baseline_price ≠ 0 then 1 - floor_price / baseline_price else 0
  let max_discount_real := max 0 mdr0
  let max_discount_real_pct := max_discount_real * 100
  let aggressivity_value := aggressivityToDiscountPercent aggressivity
  let max_discount_ui := max 0 (max_discount_percent.getD max_discount_real_pct)
  let requested0 := aggressivity_value / 100 * max_discount_ui
  let reqEff : ℚ × ℚ :=
    match discount_override with
    | some d => (d, min d max_discount_real_pct)
    | none => (requested0, min requested0 max_discount_real_pct)
  let requested_discount_pct := reqEff.1
  let effective_discount_pct := reqEff.2
  let cand0 := baseline_price * (1 - effective_discount_pct / 100)
  let candClamp : ℚ × Option String :=
    if cand0 < floor_price then (floor_price, some "MIN_RIC_FLOOR")
    else (cand0, none)
  let candidate_price := candClamp.1
  let finClamp := floorRound candidate_price candClamp.2 floor_price rounding
  let final_price := finClamp.1
  let final_ric := if lm ≠ 0 then (final_price / lm - 1) * 100 else 0
  let applied_discount := if baseline_price ≠ 0
    then (baseline_price - final_price) / baseline_price * 100 else 0
  (⟨baseline_price, floor_price, max_discount_real, max_discount_real_pct,
    max_discount_real_pct / 100, max_discount_real_pct,
    requested_discount_pct, effective_discount_pct, candidate_price,
    final_price, final_ric, applied_discount⟩, finClamp.2)

/-- `build_pricing_row` (logging and the unused `listino` label omitted). -/
def buildPricingRow (codice descrizione categoria : String)
    (lm ric_base ric_min sconto_fisso : ℚ) (max_discount_percent : Option ℚ)
    (aggressivity : ℚ) (requested_discount_override : Option ℚ) : PricingRow :=
  let prezzo_base := lm * (1 + ric_base / 100)
  let prezzo_min := lm * (1 + ric_min / 100)
  let cap_riga_percent :=
    if prezzo_base ≠ 0 then max 0 ((prezzo_base - prezzo_min) / prezzo_base * 100) else 0
  let aggressivity_value := aggressivityToDiscountPercent aggressivity
  let sconto_richiesto :=
    match requested_discount_override with
    | some d => d
    | none =>
      let max_discount_ui := max 0 (max_discount_percent.getD cap_riga_percent)
      max_discount_ui * (aggressivity_value / 100)
  let sconto_effettivo := min sconto_richiesto cap_riga_percent
  let prezzo_finale := prezzo_base * (1 - sconto_effettivo / 100)
  let ric_effettivo := if lm ≠ 0 then (prezzo_finale / lm - 1) * 100 else 0
  let fonte_cap : Option String :=
    if cap_riga_percent + 1 / 1000000000 < sconto_richiesto then some "ric_min" else none
  ⟨codice, descrizione, categoria, lm, ric_base, ric_min, sconto_fisso,
   prezzo_base, prezzo_min, sconto_richiesto, cap_riga_percent,
   sconto_effettivo, prezzo_finale, ric_effettivo, fonte_cap⟩

/-! ## Availability, LM resolution, list-price selection -/

/-- `is_available`: (available, available-from date). -/
def isAvailable (stock_item : StockItem) (causale : String) : Bool × Option String :=
  if causale = "PROGRAMMATO" then
    if 0 < stock_item.disp then (true, none)
    else if 0 < stock_item.disp_in_arrivo && stock_item.data_arrivo ≠ "" then
      (true, some stock_item.data_arrivo)
    else (false, none)
  else (decide (0 < stock_item.disp), none)

/-- `resolve_lm`: prefer the stock snapshot's LM, else the order line's. -/
def resolveLm (stock_item : Option StockItem) (order_item : Option OrderItem) :
    ℚ × Option String :=
  let stock_lm := match stock_item with
    | some s => if 0 < s.lm then s.lm else 0
    | none => 0
  let order_lm := match order_item with
    | some o => if 0 < o.lm then o.lm else 0
    | none => 0
  if 0 < stock_lm then (stock_lm, some "stock")
  else if 0 < order_lm then (order_lm, some "order")
  else (0, none)

/-- `pick_listino_value`. -/
def pickListinoValue (stock : Option StockItem) (listino : String) : ℚ :=
  match stock with
  | none => 0
  | some s =>
    let key := listinoKey listino
    if key = "RIV+10" then s.listino_ri10
    else if key = "DIST" then s.listino_di
    else s.listino_ri

/-! ## Row assembly (`compute_upsell`, lines 596-680) -/

/-- One per-row override dict (`overrides[codice]`).  `lock` and
`alt_selected` are read through `bool(...)`, so a missing key is `false`. -/
structure RowOverride where
  qty : Option ℚ
  discount_override : Option ℚ
  unit_price_override : Option ℚ
  lock : Bool
  alt_selected : Bool
deriving DecidableEq, Repr

/-- The mutable locals of the row-assembly block of `compute_upsell`
after all three override steps have run. -/
structure RowLocals where
  baseline_price : ℚ
  floor_price : ℚ
  max_discount_real : ℚ
  max_discount_real_pct : ℚ
  max_discount_effective : ℚ
  max_discount_effective_pct : ℚ
  desired : ℚ
  effective : ℚ
  candidate : ℚ
  final_price : ℚ
  final_ric : ℚ
  applied : ℚ
  clamp_reason : Option String
  min_unit_price : Option ℚ
  required_ric : Option ℚ
  note : Option String
  alt_available : Bool
deriving DecidableEq, Repr

/-- `alt_price is not None and alt_price > 0`. -/
def altAvailable (alt_price : Option ℚ) : Bool :=
  match alt_price with
  | some a => decide (0 < a)
  | none => false

/-- The row-assembly decision tree of `compute_upsell`: run the pricing
pipeline, re-run it when a discount override is present, then apply the
alternate-offer substitution (when selected, available and not locked),
then the absolute unit-price override (re-clamped and re-rounded). -/
def rowLocals (lm_value ric_base ric_floor : ℚ) (pricing : PricingParams)
    (ov : RowOverride) (alt_price : Option ℚ) : RowLocals :=
  let pr := applyPricingPipeline lm_value ric_base ric_floor pricing.aggressivity
    pricing.max_discount_percent pricing.rounding none
  let p := pr.1
  let baseline_price := p.baseline_price
  let floor_price := p.floor_price
  let alt_available : Bool := altAvailable alt_price
  let pr2 := match ov.discount_override with
    | some d => applyPricingPipeline lm_value ric_base ric_floor pricing.aggressivity
        pricing.max_discount_percent pricing.rounding (some d)
    | none => pr
  let p2 := pr2.1
  let base : RowLocals :=
    { baseline_price := baseline_price
      floor_price := floor_price
      max_discount_real := p.max_discount_real
      max_discount_real_pct := p.max_discount_real_pct
      max_discount_effective := p.max_discount_effective
      max_discount_effective_pct := p.max_discount_effective_pct
      desired := p2.desired_discount_pct
      effective := p2.effective_discount_pct
      candidate := p2.candidate_price
      final_price := p2.final_price
      final_ric := p2.final_ric
      applied := p2.applied_discount_pct
      clamp_reason := pr2.2
      min_unit_price := some floor_price
      required_ric := some ric_floor
      note := if ov.alt_selected && !alt_available then some "ALT non disponibile" else none
      alt_available := alt_available }
  let afterAlt : RowLocals :=
    if ov.alt_selected && alt_available && !ov.lock then
      let fpA := roundUpToStep (alt_price.getD 0) pricing.rounding
      let appliedA := max 0 (min 100
        (if baseline_price ≠ 0 then (baseline_price - fpA) / baseline_price * 100 else 0))
      { base with
          final_price := fpA
          applied := appliedA
          desired := appliedA
          effective := appliedA
          final_ric := if lm_value ≠ 0 then (fpA / lm_value - 1) * 100 else 0
          clamp_reason := some "ALT_LOCKED"
          min_unit_price := none
          required_ric := none
          note := some "ALT: prezzo promo fisso (non scontabile)" }
    else base
  match ov.unit_price_override with
  | none => afterAlt
  | some u =>
    let s1 : ℚ × Option String :=
      if u < floor_price then (floor_price, some "MIN_RIC_FLOOR")
      else (u, none)
    let s2 := floorRound s1.1 s1.2 floor_price pricing.rounding
    { afterAlt with
        final_price := s2.1
        clamp_reason := s2.2
        min_unit_price := some floor_price
        required_ric := some ric_floor
        final_ric := if lm_value ≠ 0 then (s2.1 / lm_value - 1) * 100 else 0
        applied := if baseline_price ≠ 0
          then (baseline_price - s2.1) / baseline_price * 100 else 0
        note := none }

/-- Assemble the `UpsellRow` appended by `add_suggestion`. -/
def buildUpsellRow (item : OrderItem) (stock_item : StockItem) (macroCat : String)
    (rv : RicValues) (fixed_discount lm_value : ℚ) (pricing : PricingParams)
    (ov : RowOverride) (available_date : Option String) : UpsellRow :=
  let alt_price := stock_item.prezzo_alt
  let L := rowLocals lm_value rv.ric_base rv.ric_floor pricing ov alt_price
  let qty := match ov.qty with
    | some q => max 1 q
    | none => max 1 item.qty
  { codice := item.codice
    descrizione := item.descrizione
    qty := qty
    prezzo_unit := L.final_price
    lm := lm_value
    prezzo_alt := alt_price
    alt_available := L.alt_available
    alt_selected := ov.alt_selected
    macro_categoria := macroCat
    fixed_discount_percent := fixed_discount
    ric_base := rv.ric_base
    ric_base_source := rv.ric_base_source
    ric_floor_source := rv.ric_floor_source
    item_exception_hit := rv.item_exception_hit
    customer_base_price := L.baseline_price
    max_discount_real := L.max_discount_real
    max_discount_real_pct := L.max_discount_real_pct
    max_discount_effective := L.max_discount_effective
    max_discount_effective_pct := L.max_discount_effective_pct
    desired_discount_pct := L.desired
    applied_discount_pct := L.applied
    final_ric_percent := L.final_ric
    clamp_reason := L.clamp_reason
    min_unit_price := L.min_unit_price
    required_ric := L.required_ric
    totale := roundUp2 (L.final_price * qty)
    disp := stock_item.disp
    disponibile_dal := available_date
    note := L.note }

/-- The inputs `add_suggestion` captures from the enclosing
`compute_upsell` call. -/
structure Ctx where
  stock : List (String × StockItem)
  client : ClientInfo
  sconti : Sconti
  category_map : List (String × List String)
  pricing : PricingParams
  causale : String
  overrides : List (String × RowOverride)
  ric_overrides : RicOverrides
  item_exceptions : List ItemException
deriving Repr

/-- The accumulators of `compute_upsell`. -/
structure EngineState where
  suggestions : List UpsellRow
  pricing_rows : List PricingRow
  warnings : List String
deriving DecidableEq, Repr

/-- `add_suggestion`: dedup guard, stock-presence check, availability
check, fatal unknown-category check, policy resolution, LM fallback
(skip with warning) and row construction. -/
def addSuggestion (ctx : Ctx) (st : EngineState) (item : OrderItem)
    (reason : String) : Except String EngineState :=
  let _ := reason
  if (st.suggestions.map (fun r => r.codice)).contains item.codice then .ok st
  else
    match ctx.stock.lookup item.codice with
    | none => .ok st
    | some stock_item =>
      let av := isAvailable stock_item ctx.causale
      if !av.1 then .ok st
      else
        let macroC := mapMacroCategory item.categoria ctx.category_map
        if macroC = "UNKNOWN" then
          .error ("Categoria non riconosciuta: " ++ item.categoria)
        else
          let rv := resolveRicValues macroC ctx.client.listino ctx.sconti
            ctx.ric_overrides ctx.item_exceptions item.codice
          let fixed_discount := getFixedDiscount macroC ctx.client.listino ctx.sconti
          let lm_value := (resolveLm (some stock_item) (some item)).1
          if lm_value ≤ 0 then
            .ok { st with warnings := st.warnings ++ ["LM mancante per SKU " ++ item.codice] }
          else
            let ov := (ctx.overrides.lookup item.codice).getD ⟨none, none, none, false, false⟩
            let row := buildUpsellRow item stock_item macroC rv fixed_discount
              lm_value ctx.pricing ov av.2
            let prow := buildPricingRow item.codice item.descrizione macroC lm_value
              rv.ric_base rv.ric_floor fixed_discount ctx.pricing.max_discount_percent
              ctx.pricing.aggressivity ov.discount_override
            .ok { suggestions := st.suggestions ++ [row]
                  pricing_rows := st.pricing_rows ++ [prow]
                  warnings := st.warnings }

def colorTokens : List String := ["CYAN", "MAGENTA", "YELLOW"]

/-- Selector stage 1 (color-to-black): for each current line containing a
chromatic token, suggest the first same-brand historical "BLACK" line. -/
def stage1 (ctx : Ctx) (historical_items : List OrderItem) :
    List OrderItem → EngineState → Except String EngineState
  | [], st => .ok st
  | item :: rest, st =>
    let description := normalizeText item.descrizione
    if colorTokens.any (fun t => containsSub description t) then
      match historical_items.find?
          (fun h => h.marca == item.marca && containsSub (normalizeText h.descrizione) "BLACK") with
      | some h => do
        let st' ← addSuggestion ctx st h "color_match_black"
        stage1 ctx historical_items rest st'
      | none => stage1 ctx historical_items rest st
    else stage1 ctx historical_items rest st

/-- Selector stage 2 (restock): current lines whose stock exceeds the
ordered quantity; the loop breaks once 3 suggestions are held. -/
def stage2 (ctx : Ctx) : List OrderItem → EngineState → Except String EngineState
  | [], st => .ok st
  | item :: rest, st =>
    if 3 ≤ st.suggestions.length then .ok st
    else
      match ctx.stock.lookup item.codice with
      | none => stage2 ctx rest st
      | some stock_item =>
        if stock_item.disp ≤ item.qty then stage2 ctx rest st
        else do
          let st' ← addSuggestion ctx st item "current_stock_available"
          stage2 ctx rest st'

/-- Selector stage 3 (historical fallback): historical lines absent from
the current order (and present in the history-by-code map, which is
always true), until 3 suggestions. -/
def stage3 (ctx : Ctx) (current_codes historical_codes : List String) :
    List OrderItem → EngineState → Except String EngineState
  | [], st => .ok st
  | h :: rest, st =>
    if 3 ≤ st.suggestions.length then .ok st
    else if current_codes.contains h.codice then stage3 ctx current_codes historical_codes rest st
    else if !(historical_codes.contains h.codice) then stage3 ctx current_codes historical_codes rest st
    else do
      let st' ← addSuggestion ctx st h "historical_fallback"
      stage3 ctx current_codes historical_codes rest st'

structure ValidationError where
  sku : String
  min_unit_price : ℚ
  provided_price : ℚ
  required_ric : Option ℚ
deriving DecidableEq, Repr

structure Validation where
  ok : Bool
  errors : List ValidationError
deriving DecidableEq, Repr

/-- What `compute_upsell` returns (audit trace and logging omitted). -/
structure ComputeResult where
  rows : List UpsellRow
  pricing_rows : List PricingRow
  validation : Validation
  warnings : List String
deriving DecidableEq, Repr

/-- `compute_upsell`: the three-stage selection waterfall, the per-row
floor validation pass and the final cap at 3 rows.  The unknown-category
`ValueError` propagates as `Except.error`. -/
def computeUpsell (current_items historical_items : List OrderItem)
    (stock : List (String × StockItem)) (client : ClientInfo) (sconti : Sconti)
    (category_map : List (String × List String)) (pricing : PricingParams)
    (causale : String) (overrides : List (String × RowOverride))
    (ric_overrides : RicOverrides) (item_exceptions : List ItemException) :
    Except String ComputeResult := do
  let ctx : Ctx := ⟨stock, client, sconti, category_map, pricing, causale,
    overrides, ric_overrides, item_exceptions⟩
  let st0 : EngineState := ⟨[], [], []⟩
  let st1 ← stage1 ctx historical_items current_items st0
  let st2 ← stage2 ctx current_items st1
  let st3 ←
    if st2.suggestions.length < 3 then
      stage3 ctx (current_items.map (fun i => i.codice))
        (historical_items.map (fun i => i.codice)) historical_items st2
    else pure st2
  let errors := st3.suggestions.filterMap
    (fun row => match row.min_unit_price with
      | some m => if row.prezzo_unit < m
          then some ⟨row.codice, m, row.prezzo_unit, row.required_ric⟩ else none
      | none => none)
  pure ⟨st3.suggestions.take 3, st3.pricing_rows.take 3,
    ⟨errors.isEmpty, errors⟩, st3.warnings⟩

/-! ## Helper lemmas -/

/-- Ceiling rounding never decreases a value. -/
lemma roundUpToStep_ge (v : ℚ) (step : Option ℚ) : v ≤ roundUpToStep v step := by
  unfold roundUpToStep
  cases step with
  | none => exact le_refl v
  | some s =>
    by_cases hs : s ≤ 0
    · simp [hs]
    · simp only [hs, if_false]
      have hpos : (0 : ℚ) < s := lt_of_not_le hs
      have hf : (0 : ℚ) < 1 / s := by positivity
      rw [le_div_iff₀ hf]
      exact Int.le_ceil (v * (1 / s))

/-- The pipeline's floor price field is the floor formula. -/
lemma applyPricingPipeline_floor (lm rb rf a : ℚ) (mdp rnd ovr : Option ℚ) :
    (applyPricingPipeline lm rb rf a mdp rnd ovr).1.floor_price = lm * (1 + rf / 100) := rfl

/-- The floor re-check tail never returns a price below the floor. -/
lemma floorRound_ge (cand : ℚ) (cl : Option String) (fl : ℚ) (rnd : Option ℚ) :
    fl ≤ (floorRound cand cl fl rnd).1 := by
  by_cases h : roundUpToStep cand rnd < fl
  · simp only [floorRound, h, if_true]
    exact roundUpToStep_ge fl rnd
  · simp only [floorRound, h, if_false]
    exact le_of_not_lt h

/-- The pipeline's final price never goes below the floor price
(exact arithmetic; the clamp plus ceiling rounding plus the re-check
make this unconditional). -/
lemma applyPricingPipeline_final_ge_floor (lm rb rf a : ℚ) (mdp rnd ovr : Option ℚ) :
    lm * (1 + rf / 100) ≤ (applyPricingPipeline lm rb rf a mdp rnd ovr).1.final_price :=
  floorRound_ge _ _ _ _

/-- Row assembly never sets a final price below a retained floor: whenever
the assembled row keeps a floor (`min_unit_price` is `some`), the final
price respects it.  The promo branch clears the floor instead. -/
lemma rowLocals_min_le_final (lm rb rf : ℚ) (pricing : PricingParams)
    (ov : RowOverride) (alt : Option ℚ) (m : ℚ)
    (hm : (rowLocals lm rb rf pricing ov alt).min_unit_price = some m) :
    m ≤ (rowLocals lm rb rf pricing ov alt).final_price := by
  cases huo : ov.unit_price_override with
  | some u =>
    simp only [rowLocals, huo] at hm ⊢
    rw [applyPricingPipeline_floor] at hm
    rw [Option.some.injEq] at hm
    subst hm
    rw [show (applyPricingPipeline lm rb rf pricing.aggressivity
      pricing.max_discount_percent pricing.rounding none).1.floor_price
        = lm * (1 + rf / 100) from rfl]
    exact floorRound_ge _ _ _ _
  | none =>
    simp only [rowLocals, huo] at hm ⊢
    by_cases hc : (ov.alt_selected && altAvailable alt && !ov.lock) = true
    · rw [if_pos hc] at hm
      exact absurd hm (by simp)
    · rw [if_neg hc] at hm ⊢
      rw [applyPricingPipeline_floor, Option.some.injEq] at hm
      subst hm
      cases hdo : ov.discount_override with
      | some d =>
        simp only [hdo]
        exact applyPricingPipeline_final_ge_floor lm rb rf pricing.aggressivity
          pricing.max_discount_percent pricing.rounding (some d)
      | none =>
        simp only [hdo]
        exact applyPricingPipeline_final_ge_floor lm rb rf pricing.aggressivity
          pricing.max_discount_percent pricing.rounding none


lemma exc_bind_ok {α β : Type} (a : α) (f : α → Except String β) :
    ((Except.ok a : Except String α) >>= f) = f a := rfl

lemma exc_bind_error {α β : Type} (e : String) (f : α → Except String β) :
    ((Except.error e : Except String α) >>= f) = Except.error e := rfl

/-- A row that keeps a floor price respects it. -/
def rowFloorOK (r : UpsellRow) : Prop :=
  ∀ m, r.min_unit_price = some m → m ≤ r.prezzo_unit

/-- The invariant the selector maintains. -/
def stateOK (st : EngineState) : Prop :=
  (st.suggestions.map (fun r => r.codice)).Nodup ∧ ∀ r ∈ st.suggestions, rowFloorOK r

lemma buildUpsellRow_floorOK (item : OrderItem) (stock_item : StockItem)
    (macroCat : String) (rv : RicValues) (fd lmv : ℚ) (pricing : PricingParams)
    (ov : RowOverride) (ad : Option String) :
    rowFloorOK (buildUpsellRow item stock_item macroCat rv fd lmv pricing ov ad) :=
  fun m hm => rowLocals_min_le_final lmv rv.ric_base rv.ric_floor pricing ov
    stock_item.prezzo_alt m hm

lemma buildUpsellRow_codice (item : OrderItem) (stock_item : StockItem)
    (macroCat : String) (rv : RicValues) (fd lmv : ℚ) (pricing : PricingParams)
    (ov : RowOverride) (ad : Option String) :
    (buildUpsellRow item stock_item macroCat rv fd lmv pricing ov ad).codice
      = item.codice := rfl

/-- `add_suggestion` preserves the selector invariant. -/
lemma addSuggestion_stateOK (ctx : Ctx) (st : EngineState) (item : OrderItem)
    (reason : String) (st' : EngineState)
    (h : addSuggestion ctx st item reason = .ok st') (hst : stateOK st) :
    stateOK st' := by
  simp only [addSuggestion] at h
  split at h
  · exact (Except.ok.inj h) ▸ hst
  · next hdup =>
    split at h
    · exact (Except.ok.inj h) ▸ hst
    · next stock_item heq =>
      split at h
      · exact (Except.ok.inj h) ▸ hst
      · split at h
        · exact absurd h (by simp)
        · split at h
          · exact (Except.ok.inj h) ▸ hst
          · refine (Except.ok.inj h) ▸ ⟨?_, ?_⟩
            · rw [List.map_append, List.nodup_append]
              refine ⟨hst.1, List.nodup_singleton _, ?_⟩
              intro a ha
              simp only [buildUpsellRow_codice, List.map_singleton, List.mem_singleton]
              intro hcontra
              subst hcontra
              exact hdup (by simpa using ha)
            · intro r hr
              rcases List.mem_append.mp hr with hr | hr
              · exact hst.2 r hr
              · rw [List.mem_singleton] at hr
                subst hr
                exact buildUpsellRow_floorOK _ _ _ _ _ _ _ _ _

/-- Stage 1 preserves the selector invariant. -/
lemma stage1_stateOK (ctx : Ctx) (hist : List OrderItem) :
    ∀ (items : List OrderItem) (st st' : EngineState),
      stage1 ctx hist items st = .ok st' → stateOK st → stateOK st' := by
  intro items
  induction items with
  | nil =>
    intro st st' h hst
    simp only [stage1] at h
    exact (Except.ok.inj h) ▸ hst
  | cons item rest ih =>
    intro st st' h hst
    simp only [stage1] at h
    split at h
    · split at h
      · next hfound heq =>
        cases hadd : addSuggestion ctx st hfound "color_match_black" with
        | error e =>
          rw [hadd, exc_bind_error] at h
          exact absurd h (by simp)
        | ok stm =>
          rw [hadd, exc_bind_ok] at h
          exact ih stm st' h (addSuggestion_stateOK ctx st hfound "color_match_black" stm hadd hst)
      · exact ih st st' h hst
    · exact ih st st' h hst

/-- Stage 2 preserves the selector invariant. -/
lemma stage2_stateOK (ctx : Ctx) :
    ∀ (items : List OrderItem) (st st' : EngineState),
      stage2 ctx items st = .ok st' → stateOK st → stateOK st' := by
  intro items
  induction items with
  | nil =>
    intro st st' h hst
    simp only [stage2] at h
    exact (Except.ok.inj h) ▸ hst
  | cons item rest ih =>
    intro st st' h hst
    simp only [stage2] at h
    split at h
    · exact (Except.ok.inj h) ▸ hst
    · split at h
      · exact ih st st' h hst
      · next stock_item heq =>
        split at h
        · exact ih st st' h hst
        · cases hadd : addSuggestion ctx st item "current_stock_available" with
          | error e =>
            rw [hadd, exc_bind_error] at h
            exact absurd h (by simp)
          | ok stm =>
            rw [hadd, exc_bind_ok] at h
            exact ih stm st' h (addSuggestion_stateOK ctx st item "current_stock_available" stm hadd hst)

/-- Stage 3 preserves the selector invariant. -/
lemma stage3_stateOK (ctx : Ctx) (cur hist : List String) :
    ∀ (items : List OrderItem) (st st' : EngineState),
      stage3 ctx cur hist items st = .ok st' → stateOK st → stateOK st' := by
  intro items
  induction items with
  | nil =>
    intro st st' h hst
    simp only [stage3] at h
    exact (Except.ok.inj h) ▸ hst
  | cons item rest ih =>
    intro st st' h hst
    simp only [stage3] at h
    split at h
    · exact (Except.ok.inj h) ▸ hst
    · split at h
      · exact ih st st' h hst
      · split at h
        · exact ih st st' h hst
        · cases hadd : addSuggestion ctx st item "historical_fallback" with
          | error e =>
            rw [hadd, exc_bind_error] at h
            exact absurd h (by simp)
          | ok stm =>
            rw [hadd, exc_bind_ok] at h
            exact ih stm st' h (addSuggestion_stateOK ctx st item "historical_fallback" stm hadd hst)

/-- Every successful `compute_upsell` call returns at most 3 rows, with
pairwise-distinct SKU codes, each respecting its retained floor. -/
lemma computeUpsell_invariant (current_items historical_items : List OrderItem)
    (stock : List (String × StockItem)) (client : ClientInfo) (sconti : Sconti)
    (category_map : List (String × List String)) (pricing : PricingParams)
    (causale : String) (overrides : List (String × RowOverride))
    (ric_overrides : RicOverrides) (item_exceptions : List ItemException)
    (out : ComputeResult)
    (h : computeUpsell current_items historical_items stock client sconti
      category_map pricing causale overrides ric_overrides item_exceptions = .ok out) :
    out.rows.length ≤ 3 ∧ (out.rows.map (fun r => r.codice)).Nodup ∧
      ∀ r ∈ out.rows, rowFloorOK r := by
  simp only [computeUpsell] at h
  cases h1 : stage1 ⟨stock, client, sconti, category_map, pricing, causale,
      overrides, ric_overrides, item_exceptions⟩ historical_items current_items ⟨[], [], []⟩ with
  | error e => rw [h1, exc_bind_error] at h; exact absurd h (by simp)
  | ok st1 =>
    rw [h1, exc_bind_ok] at h
    cases h2 : stage2 ⟨stock, client, sconti, category_map, pricing, causale,
        overrides, ric_overrides, item_exceptions⟩ current_items st1 with
    | error e => rw [h2, exc_bind_error] at h; exact absurd h (by simp)
    | ok st2 =>
      rw [h2, exc_bind_ok] at h
      have hok1 : stateOK st1 := stage1_stateOK _ _ _ _ _ h1 ⟨by simp, by simp⟩
      have hok2 : stateOK st2 := stage2_stateOK _ _ _ _ h2 hok1
      have main : ∀ st3 : EngineState, stateOK st3 →
          out.rows = st3.suggestions.take 3 →
          out.rows.length ≤ 3 ∧ (out.rows.map (fun r => r.codice)).Nodup ∧
            ∀ r ∈ out.rows, rowFloorOK r := by
        intro st3 hok3 hout
        rw [hout]
        refine ⟨?_, ?_, ?_⟩
        · simp [List.length_take]
        · exact List.Nodup.sublist
            (List.Sublist.map (fun r : UpsellRow => r.codice) (List.take_sublist 3 _)) hok3.1
        · intro r hr
          exact hok3.2 r (List.mem_of_mem_take hr)
      split at h
      · cases h3 : stage3 ⟨stock, client, sconti, category_map, pricing, causale,
            overrides, ric_overrides, item_exceptions⟩
            (current_items.map (fun i => i.codice))
            (historical_items.map (fun i => i.codice)) historical_items st2 with
        | error e => rw [h3, exc_bind_error] at h; exact absurd h (by simp)
        | ok st3 =>
          rw [h3, exc_bind_ok] at h
          exact main st3 (stage3_stateOK _ _ _ _ _ _ h3 hok2)
            (congrArg ComputeResult.rows (Except.ok.inj h)).symm
      · rw [show (pure st2 : Except String EngineState) = Except.ok st2 from rfl,
          exc_bind_ok] at h
        exact main st2 hok2 (congrArg ComputeResult.rows (Except.ok.inj h)).symm

/-! ## Claim theorems -/

/-- C7: for every value `v` and rounding step `s > 0`, `round_up_to_step`
returns a value ≥ `v` that is the least integer multiple of `s` ≥ `v`
(exact arithmetic); consequently rounding a price already ≥ the floor
never pushes it below the floor, and re-rounding the floor price itself
yields a value ≥ the unrounded floor price. -/
theorem C7_round_up_to_step_ceiling (v s : ℚ) (hs : 0 < s) :
    v ≤ roundUpToStep v (some s) ∧
    (∃ k : ℤ, roundUpToStep v (some s) = k * s) ∧
    (∀ k : ℤ, v ≤ k * s → roundUpToStep v (some s) ≤ k * s) ∧
    (∀ fl : ℚ, fl ≤ v → fl ≤ roundUpToStep v (some s)) ∧
    (∀ fl : ℚ, fl ≤ roundUpToStep fl (some s)) := by
  have hss : s ≠ 0 := ne_of_gt hs
  have key : ∀ w : ℚ, roundUpToStep w (some s) = (⌈w * (1 / s)⌉ : ℚ) * s := by
    intro w
    simp only [roundUpToStep, if_neg (not_le.mpr hs)]
    rw [one_div, div_inv_eq_mul]
  have part1 : ∀ w : ℚ, w ≤ roundUpToStep w (some s) :=
    fun w => roundUpToStep_ge w (some s)
  refine ⟨part1 v, ⟨⌈v * (1 / s)⌉, key v⟩, ?_, ?_, fun fl => part1 fl⟩
  · intro k hk
    rw [key v]
    have h1 : v * (1 / s) ≤ (k : ℚ) := by
      have hstep := mul_le_mul_of_nonneg_right hk
        (le_of_lt (by positivity : (0 : ℚ) < 1 / s))
      calc v * (1 / s) ≤ (k : ℚ) * s * (1 / s) := hstep
        _ = (k : ℚ) := by field_simp
    have h2 : (⌈v * (1 / s)⌉ : ℤ) ≤ k := Int.ceil_le.mpr h1
    have h2q : ((⌈v * (1 / s)⌉ : ℤ) : ℚ) ≤ (k : ℚ) := by exact_mod_cast h2
    exact mul_le_mul_of_nonneg_right h2q (le_of_lt hs)
  · intro fl hfl
    exact le_trans hfl (part1 v)

/-- Witness for C7 at `v = 123/100`, `s = 1/10`. -/
theorem C7_round_up_to_step_ceiling_witness :
    (0 : ℚ) < 1 / 10 ∧
    ((123 / 100 : ℚ) ≤ roundUpToStep (123 / 100) (some (1 / 10)) ∧
    (∃ k : ℤ, roundUpToStep (123 / 100 : ℚ) (some (1 / 10)) = k * (1 / 10)) ∧
    (∀ k : ℤ, (123 / 100 : ℚ) ≤ k * (1 / 10) →
      roundUpToStep (123 / 100 : ℚ) (some (1 / 10)) ≤ k * (1 / 10)) ∧
    (∀ fl : ℚ, fl ≤ 123 / 100 → fl ≤ roundUpToStep (123 / 100 : ℚ) (some (1 / 10))) ∧
    (∀ fl : ℚ, fl ≤ roundUpToStep fl (some (1 / 10 : ℚ)))) :=
  ⟨by norm_num, C7_round_up_to_step_ceiling (123 / 100) (1 / 10) (by norm_num)⟩

/-- C1: every row returned by a successful `compute_upsell` call that is
not promo-locked (its `min_unit_price` is non-null) has a final unit
price `prezzo_unit` ≥ that floor, for every combination of aggressivity,
cap, rounding, discount-override and unit-price-override inputs. -/
theorem C1_floor_invariant (current_items historical_items : List OrderItem)
    (stock : List (String × StockItem)) (client : ClientInfo) (sconti : Sconti)
    (category_map : List (String × List String)) (pricing : PricingParams)
    (causale : String) (overrides : List (String × RowOverride))
    (ric_overrides : RicOverrides) (item_exceptions : List ItemException)
    (out : ComputeResult)
    (h : computeUpsell current_items historical_items stock client sconti
      category_map pricing causale overrides ric_overrides item_exceptions = .ok out) :
    ∀ r ∈ out.rows, ∀ m, r.min_unit_price = some m → m ≤ r.prezzo_unit :=
  fun r hr m hm =>
    (computeUpsell_invariant current_items historical_items stock client sconti
      category_map pricing causale overrides ric_overrides item_exceptions out h).2.2
      r hr m hm

/-- C9: for every input, a successful `compute_upsell` call returns at
most 3 rows and never repeats a SKU code. -/
theorem C9_selection_cap_and_unique (current_items historical_items : List OrderItem)
    (stock : List (String × StockItem)) (client : ClientInfo) (sconti : Sconti)
    (category_map : List (String × List String)) (pricing : PricingParams)
    (causale : String) (overrides : List (String × RowOverride))
    (ric_overrides : RicOverrides) (item_exceptions : List ItemException)
    (out : ComputeResult)
    (h : computeUpsell current_items historical_items stock client sconti
      category_map pricing causale overrides ric_overrides item_exceptions = .ok out) :
    out.rows.length ≤ 3 ∧ (out.rows.map (fun r => r.codice)).Nodup :=
  ⟨(computeUpsell_invariant current_items historical_items stock client sconti
      category_map pricing causale overrides ric_overrides item_exceptions out h).1,
   (computeUpsell_invariant current_items historical_items stock client sconti
      category_map pricing causale overrides ric_overrides item_exceptions out h).2.1⟩

/-! ## Concrete witness inputs -/

def stockW : List (String × StockItem) :=
  [("A", ⟨"TONER X", "ACME", "A", "Toner A", 10, 0, 0, "", 140, 130, 120, 100, none⟩)]

def currentW : List OrderItem := [⟨"ACME", "TONER X", "A", "TONER NERO", 1, 0, 0⟩]

def clientW : ClientInfo := ⟨"C1", "Cliente", "LISTINO RI", "cat"⟩

def scontiW : Sconti := [("TONER", [("RIV", ⟨some 11, some 20, some 0⟩)])]

def categoryMapW : List (String × List String) := [("TONER", ["TONER"])]

def pricingW : PricingParams := ⟨0, "discount_from_baseline", some 10, 2, some (1 / 100)⟩

def stockItemW : StockItem :=
  ⟨"TONER X", "ACME", "A", "Toner A", 10, 0, 0, "", 140, 130, 120, 100, none⟩

def itemW : OrderItem := ⟨"ACME", "TONER X", "A", "TONER NERO", 1, 0, 0⟩

def ovW : RowOverride := ⟨none, none, none, false, false⟩

def rvW : RicValues := ⟨"RIV", 11, 20, "default", "default", false⟩

/-- The single row the witness run produces (left as the engine's own
row-builder applied to the resolved inputs). -/
def rowW : UpsellRow := buildUpsellRow itemW stockItemW "TONER" rvW 0 100 pricingW ovW none

def resultW : ComputeResult :=
  match computeUpsell currentW [] stockW clientW scontiW categoryMapW pricingW
      "DISPONIBILE" [] [] [] with
  | .ok out => out
  | .error _ => ⟨[], [], ⟨true, []⟩, []⟩

lemma resultW_rows : resultW.rows = [rowW] := rfl

lemma rowW_min : rowW.min_unit_price = some 111 := by
  norm_num [rowW, buildUpsellRow, rowLocals, applyPricingPipeline, stockItemW,
    aggressivityToDiscountPercent, floorRound, roundUpToStep, altAvailable,
    pricingW, ovW, rvW]

/-- Witness for C9: the concrete run succeeds and its rows satisfy the cap
and uniqueness. -/
theorem C9_selection_cap_and_unique_witness :
    resultW.rows.length ≤ 3 ∧ (resultW.rows.map (fun r => r.codice)).Nodup :=
  C9_selection_cap_and_unique currentW [] stockW clientW scontiW categoryMapW
    pricingW "DISPONIBILE" [] [] [] resultW (by rfl)

/-- Witness for C1: the concrete run returns a row with floor 111 and a
final price respecting it. -/
theorem C1_floor_invariant_witness :
    rowW ∈ resultW.rows ∧ rowW.min_unit_price = some 111 ∧
      (111 : ℚ) ≤ rowW.prezzo_unit :=
  ⟨by rw [resultW_rows]; exact List.mem_singleton_self _, rowW_min,
   C1_floor_invariant currentW [] stockW clientW scontiW categoryMapW pricingW
     "DISPONIBILE" [] [] [] resultW (by rfl) rowW
     (by rw [resultW_rows]; exact List.mem_singleton_self _) 111 rowW_min⟩

/-- C3 counterexample: in the floor-clamp scenario (LM=100, floor markup
11%, baseline markup 20%, aggressivity 100, no cap override) the candidate
price lands exactly on the floor, the clamp comparison is strict `<`, and
so the clamp reason is `none` — not the non-null "below minimum markup
floor" reason the claim requires. -/
theorem C3_clamp_reason_counterexample :
    (applyPricingPipeline 100 20 11 100 none (some (1 / 100)) none).2 = none := by
  norm_num [applyPricingPipeline, aggressivityToDiscountPercent, floorRound,
    roundUpToStep]

/-- C3 amended: the scenario's numbers are as claimed — baseline 120,
floor 111, max real discount 7.5%, final price 111.00 — but the clamp
reason is null, because the effective discount lands the candidate exactly
on the floor and the clamp fires only on strictly smaller candidates. -/
theorem C3_floor_clamp_scenario :
    (applyPricingPipeline 100 20 11 100 none (some (1 / 100)) none).1.baseline_price = 120 ∧
    (applyPricingPipeline 100 20 11 100 none (some (1 / 100)) none).1.floor_price = 111 ∧
    (applyPricingPipeline 100 20 11 100 none (some (1 / 100)) none).1.max_discount_real_pct = 15 / 2 ∧
    (applyPricingPipeline 100 20 11 100 none (some (1 / 100)) none).1.final_price = 111 ∧
    (applyPricingPipeline 100 20 11 100 none (some (1 / 100)) none).2 = none := by
  norm_num [applyPricingPipeline, aggressivityToDiscountPercent, floorRound,
    roundUpToStep]

/-- C2 counterexample: with an empty category discount table — so no
default entry exists for any (macro-category, price-list) pair —
`resolve_ric_values` does not abort: it silently produces floor and
baseline values (the absolute minimum markup). -/
theorem C2_missing_default_counterexample :
    resolveRicValues "CATX" "LISTINO RI" [] [] [] "" =
      ⟨"RIV", 11, 11, "default", "default", false⟩ := by decide

/-- C2 amended: when the category discount table has no entry for the
resolved (macro-category, price-list key) pair, `resolve_ric_values`
(with no overrides or exceptions) falls back to the absolute minimum
markup, returning floor = baseline = 11 with "default" sources, instead
of aborting with a policy configuration error. -/
theorem C2_missing_default_fallback (macroCat listino : String) (sconti : Sconti)
    (sku : String)
    (h : scontiLookupOpt sconti macroCat (listinoKey listino) = none) :
    resolveRicValues macroCat listino sconti [] [] sku =
      ⟨listinoKey listino, ABSOLUTE_MIN_MARKUP, ABSOLUTE_MIN_MARKUP,
       "default", "default", false⟩ := by
  simp [resolveRicValues, scontiLookup, h, ricFloorCalc, itemBaseCalc, ricBaseCalc]

/-- Witness for C2: a concrete macro-category and price-list with an empty
table. -/
theorem C2_missing_default_fallback_witness :
    scontiLookupOpt [] "CATY" (listinoKey "LISTINO RI") = none ∧
    resolveRicValues "CATY" "LISTINO RI" [] [] [] "S" =
      ⟨listinoKey "LISTINO RI", ABSOLUTE_MIN_MARKUP, ABSOLUTE_MIN_MARKUP,
       "default", "default", false⟩ :=
  ⟨rfl, C2_missing_default_fallback "CATY" "LISTINO RI" [] "S" rfl⟩

def ovC4 : RowOverride := ⟨none, some 5, none, false, true⟩

/-- C4 counterexample: with both a discount override (5%) and the
alternate-offer flag set (promo price 150 available, no lock, no absolute
unit-price override), the assembled row's final price is the rounded promo
price 150 with clamp reason ALT_LOCKED — not the 114 computed by the
pricing pipeline with the explicit discount override, as the claim's
precedence would require. -/
theorem C4_precedence_counterexample :
    (rowLocals 100 20 11 pricingW ovC4 (some 150)).final_price = 150 ∧
    (applyPricingPipeline 100 20 11 pricingW.aggressivity
      pricingW.max_discount_percent pricingW.rounding (some 5)).1.final_price = 114 ∧
    (rowLocals 100 20 11 pricingW ovC4 (some 150)).clamp_reason = some "ALT_LOCKED" ∧
    (150 : ℚ) ≠ 114 := by
  norm_num [rowLocals, applyPricingPipeline, aggressivityToDiscountPercent,
    floorRound, roundUpToStep, altAvailable, pricingW, ovC4]

/-- C4 amended: the alternate-offer substitution takes precedence over the
discount-percent override.  Whenever the alternate offer is selected and
available and the row is not locked and no absolute unit-price override is
present, the final price is the rounded promo price, the clamp reason is
ALT_LOCKED and the floor is cleared — regardless of any discount
override; the discount override only governs the outcome when the
alternate substitution does not fire. -/
theorem C4_alt_overrides_discount (lm rb rf : ℚ) (pricing : PricingParams)
    (ov : RowOverride) (a : ℚ) (alt : Option ℚ)
    (halt : alt = some a) (hpos : 0 < a) (hsel : ov.alt_selected = true)
    (hlock : ov.lock = false) (huo : ov.unit_price_override = none) :
    (rowLocals lm rb rf pricing ov alt).final_price = roundUpToStep a pricing.rounding ∧
    (rowLocals lm rb rf pricing ov alt).clamp_reason = some "ALT_LOCKED" ∧
    (rowLocals lm rb rf pricing ov alt).min_unit_price = none := by
  subst halt
  have hc : (ov.alt_selected && altAvailable (some a) && !ov.lock) = true := by
    simp [hsel, hlock, altAvailable, hpos]
  simp only [rowLocals, huo]
  rw [if_pos hc]
  simp

/-- Witness for C4 amended: the counterexample configuration itself. -/
theorem C4_alt_overrides_discount_witness :
    (rowLocals 100 20 11 pricingW ovC4 (some 150)).final_price
        = roundUpToStep 150 pricingW.rounding ∧
    (rowLocals 100 20 11 pricingW ovC4 (some 150)).clamp_reason = some "ALT_LOCKED" ∧
    (rowLocals 100 20 11 pricingW ovC4 (some 150)).min_unit_price = none :=
  C4_alt_overrides_discount 100 20 11 pricingW ovC4 150 (some 150) rfl
    (by norm_num) rfl rfl rfl

def scontiC5 : Sconti := [("CART", [("RIV", ⟨some 11, none, some 0⟩)])]

def ricOvC5 : RicOverrides := [("CART", [("RIV", ⟨none, some 20⟩)])]

def exC5 : List ItemException :=
  [⟨some "SKU1", some "RIV", some 25⟩, ⟨some "SKU1", some "ALL", some 22⟩]

/-- C5: in the scenario (category override baseline 20 for RIV, SKU
exception scoped RIV with baseline 25, SKU exception scoped ALL with
baseline 22) the resolver returns baseline 25 from source
"item_exception"; and in general, given one specific-scoped and one
ALL-scoped exception for the same SKU — in either list order — the
specific-scoped entry's baseline is the one selected. -/
theorem C5_sku_exception_precedence :
    (resolveRicValues "CART" "LISTINO RI" scontiC5 ricOvC5 exC5 "SKU1").ric_base = 25 ∧
    (resolveRicValues "CART" "LISTINO RI" scontiC5 ricOvC5 exC5 "SKU1").ric_base_source
      = "item_exception" ∧
    (∀ (sku scopeStr lscope : String) (a b : ℚ),
      sku ≠ "" →
      pyUpper scopeStr ≠ "ALL" →
      stripPlus (pyUpper scopeStr) = lscope →
      itemBaseCalc [⟨some sku, some scopeStr, some a⟩, ⟨some sku, some "ALL", some b⟩]
          sku lscope = (some a, true) ∧
      itemBaseCalc [⟨some sku, some "ALL", some b⟩, ⟨some sku, some scopeStr, some a⟩]
          sku lscope = (some a, true)) := by
  refine ⟨by decide, by decide, ?_⟩
  intro sku scopeStr lscope a b hsku hns hsc
  have hallup : pyUpper "ALL" = "ALL" := by decide
  have hallstrip : stripPlus (pyUpper "ALL") = "ALL" := by decide
  constructor <;>
    simp [itemBaseCalc, List.find?, hsku, hns, hsc, hallup, hallstrip]

/-- Witness for C5: the general tie-break instantiated at the scenario's
own exception entries. -/
theorem C5_sku_exception_precedence_witness :
    itemBaseCalc [⟨some "SKU1", some "RIV", some 25⟩, ⟨some "SKU1", some "ALL", some 22⟩]
        "SKU1" "RIV" = (some 25, true) ∧
    itemBaseCalc [⟨some "SKU1", some "ALL", some 22⟩, ⟨some "SKU1", some "RIV", some 25⟩]
        "SKU1" "RIV" = (some 25, true) :=
  C5_sku_exception_precedence.2.2 "SKU1" "RIV" "RIV" 25 22 (by decide) (by decide)
    (by decide)

lemma ricFloorCalc_ge (fd : ℚ) (c : Option CatOverride) : fd ≤ (ricFloorCalc fd c).1 := by
  cases c with
  | none => exact le_refl fd
  | some ov =>
    simp only [ricFloorCalc]
    split
    · next hlt => exact le_of_lt hlt
    · exact le_refl fd

lemma ricBaseCalc_ge_floor (fl bd : ℚ) (cb ib : Option ℚ) :
    fl ≤ ricBaseCalc fl bd cb ib := by
  cases cb with
  | none =>
    cases ib with
    | none => exact le_max_left fl bd
    | some x =>
      exact le_trans (le_max_left fl bd) (le_max_left _ _)
  | some y =>
    cases ib with
    | none => exact le_trans (le_max_left fl bd) (le_max_left _ _)
    | some x =>
      exact le_trans (le_trans (le_max_left fl bd) (le_max_left _ _)) (le_max_left _ _)

lemma ricBaseCalc_mono (fl fl' bd : ℚ) (cb ib : Option ℚ) (h : fl ≤ fl') :
    ricBaseCalc fl bd none none ≤ ricBaseCalc fl' bd cb ib := by
  have hbase : max fl bd ≤ max fl' bd := max_le_max h (le_refl bd)
  cases cb with
  | none =>
    cases ib with
    | none => exact hbase
    | some x => exact le_trans hbase (le_max_left _ _)
  | some y =>
    cases ib with
    | none => exact le_trans hbase (le_max_left _ _)
    | some x => exact le_trans (le_trans hbase (le_max_left _ _)) (le_max_left _ _)

/-- C6: the resolver's floor is at least both the absolute minimum markup
(11%) and the category-default floor; its baseline is at least its floor;
and the floor and baseline with any overrides and exceptions supplied are
never below the default-only computation's floor and baseline. -/
theorem C6_monotone_merge (macroCat listino : String) (sconti : Sconti)
    (ric_overrides : RicOverrides) (item_exceptions : List ItemException)
    (sku : String) :
    ABSOLUTE_MIN_MARKUP ≤
      (resolveRicValues macroCat listino sconti ric_overrides item_exceptions sku).ric_floor ∧
    max ABSOLUTE_MIN_MARKUP
        ((scontiLookup sconti macroCat (listinoKey listino)).ric.getD ABSOLUTE_MIN_MARKUP) ≤
      (resolveRicValues macroCat listino sconti ric_overrides item_exceptions sku).ric_floor ∧
    (resolveRicValues macroCat listino sconti ric_overrides item_exceptions sku).ric_floor ≤
      (resolveRicValues macroCat listino sconti ric_overrides item_exceptions sku).ric_base ∧
    (resolveRicValues macroCat listino sconti [] [] sku).ric_floor ≤
      (resolveRicValues macroCat listino sconti ric_overrides item_exceptions sku).ric_floor ∧
    (resolveRicValues macroCat listino sconti [] [] sku).ric_base ≤
      (resolveRicValues macroCat listino sconti ric_overrides item_exceptions sku).ric_base := by
  refine ⟨?_, ricFloorCalc_ge _ _, ricBaseCalc_ge_floor _ _ _ _,
    ricFloorCalc_ge _ _, ricBaseCalc_mono _ _ _ _ _ (ricFloorCalc_ge _ _)⟩
  exact le_trans (le_max_left _ _) (ricFloorCalc_ge _ _)

/-- C10: any price-list name that (after upper-casing and trimming) is not
one of the three known keys silently resolves to the "RIV" scope: the
price-list key is "RIV", `pick_listino_value` returns the RIV list price,
`get_fixed_discount` reads the RIV discount column, and
`resolve_ric_values` records "RIV" — with no error or warning anywhere. -/
theorem C10_unknown_listino_falls_back_to_RIV (listino : String)
    (stock : StockItem) (macroCat : String) (sconti : Sconti)
    (h1 : pyStrip (pyUpper listino) ≠ "LISTINO RI+10%")
    (h2 : pyStrip (pyUpper listino) ≠ "LISTINO RI")
    (h3 : pyStrip (pyUpper listino) ≠ "LISTINO DI") :
    listinoKey listino = "RIV" ∧
    pickListinoValue (some stock) listino = stock.listino_ri ∧
    getFixedDiscount macroCat listino sconti =
      (scontiLookup sconti macroCat "RIV").discount.getD 0 ∧
    (resolveRicValues macroCat listino sconti [] [] "").listino_key = "RIV" := by
  have hk : listinoKey listino = "RIV" := by
    simp [listinoKey, h1, h2, h3]
  refine ⟨hk, ?_, ?_, hk⟩
  · simp [pickListinoValue, hk]
  · simp [getFixedDiscount, hk]

/-- Witness for C10 at the misspelled price-list "LISTINO SPECIALE". -/
theorem C10_unknown_listino_falls_back_to_RIV_witness :
    listinoKey "LISTINO SPECIALE" = "RIV" ∧
    pickListinoValue (some stockItemW) "LISTINO SPECIALE" = stockItemW.listino_ri ∧
    getFixedDiscount "CATX" "LISTINO SPECIALE" scontiW =
      (scontiLookup scontiW "CATX" "RIV").discount.getD 0 ∧
    (resolveRicValues "CATX" "LISTINO SPECIALE" scontiW [] [] "").listino_key = "RIV" :=
  C10_unknown_listino_falls_back_to_RIV "LISTINO SPECIALE" stockItemW "CATX" scontiW
    (by decide) (by decide) (by decide)

def itemU : OrderItem := ⟨"ACME", "GIZMO BLU", "D", "GADGET D", 1, 0, 0⟩

def stockItemU : StockItem :=
  ⟨"GIZMO BLU", "ACME", "D", "Gadget D", 10, 0, 0, "", 140, 130, 120, 100, none⟩

def stockU : List (String × StockItem) := [("D", stockItemU)]

def ctxU : Ctx := ⟨stockU, clientW, scontiW, categoryMapW, pricingW, "DISPONIBILE", [], [], []⟩

/-- C8 amended: when the selector actually examines a candidate — its code
not already suggested, present in stock, available — whose category maps
to the "unknown" sentinel, `add_suggestion` raises the configuration error
and the whole computation fails with no rows (second conjunct: a concrete
whole-run failure). -/
theorem C8_unknown_category_fatal_when_reached :
    (∀ (ctx : Ctx) (st : EngineState) (item : OrderItem) (reason : String) (si : StockItem),
      (st.suggestions.map (fun r => r.codice)).contains item.codice = false →
      ctx.stock.lookup item.codice = some si →
      (isAvailable si ctx.causale).1 = true →
      mapMacroCategory item.categoria ctx.category_map = "UNKNOWN" →
      addSuggestion ctx st item reason =
        .error ("Categoria non riconosciuta: " ++ item.categoria)) ∧
    computeUpsell [itemU] [] stockU clientW scontiW categoryMapW pricingW
      "DISPONIBILE" [] [] [] = .error "Categoria non riconosciuta: GIZMO BLU" := by
  constructor
  · intro ctx st item reason si hdup hlook hav hmac
    have hdup' : item.codice ∉ st.suggestions.map (fun r => r.codice) := by
      simpa using hdup
    simp [addSuggestion, hdup, hlook, hav, hmac]
    exact fun x hx hcontra => hdup' (List.mem_map.mpr ⟨x, hx, hcontra⟩)
  · rfl

/-- Witness for C8 amended, at a concrete context and candidate. -/
theorem C8_unknown_category_fatal_when_reached_witness :
    addSuggestion ctxU ⟨[], [], []⟩ itemU "current_stock_available" =
      .error "Categoria non riconosciuta: GIZMO BLU" :=
  C8_unknown_category_fatal_when_reached.1 ctxU ⟨[], [], []⟩ itemU
    "current_stock_available" stockItemU rfl rfl rfl (by decide)

def stockCap : List (String × StockItem) :=
  [("A", ⟨"TONER X", "ACME", "A", "Toner A", 10, 0, 0, "", 140, 130, 120, 100, none⟩),
   ("B", ⟨"TONER Y", "ACME", "B", "Toner B", 10, 0, 0, "", 140, 130, 120, 100, none⟩),
   ("C", ⟨"TONER Z", "ACME", "C", "Toner C", 10, 0, 0, "", 140, 130, 120, 100, none⟩),
   ("D", stockItemU)]

def curCap : List OrderItem :=
  [⟨"ACME", "TONER X", "A", "TONER A NERO", 1, 0, 0⟩,
   ⟨"ACME", "TONER Y", "B", "TONER B NERO", 1, 0, 0⟩,
   ⟨"ACME", "TONER Z", "C", "TONER C NERO", 1, 0, 0⟩,
   itemU]

/-- C8 counterexample: an invocation in which candidate "D" passes the
stock-presence and availability checks and has an unknown category, yet
`compute_upsell` succeeds and returns three rows — the 3-row cap was
reached before "D" was examined, so no configuration error is raised. -/
theorem C8_unknown_category_counterexample :
    (computeUpsell curCap [] stockCap clientW scontiW categoryMapW pricingW
        "DISPONIBILE" [] [] []).map (fun o => o.rows.map (fun r => r.codice))
      = .ok ["A", "B", "C"] ∧
    mapMacroCategory itemU.categoria categoryMapW = "UNKNOWN" ∧
    (stockCap.lookup itemU.codice).isSome = true ∧
    (isAvailable stockItemU "DISPONIBILE").1 = true := by
  refine ⟨rfl, rfl, rfl, rfl⟩
